import Mathlib

/-! Verification of the agent loop, tool registry and textual-fallback parser
of the telegram-bot repository (package `agent` and package `tools`).

The Go source is shallowly embedded: the agent loop `Chat` becomes a
fuel-indexed recursive function over an explicit conversation (list of
messages), the model backend (`sendRequest`) becomes an abstract
`Transport` function from the current conversation to either an assistant
message or a transport error, and each tool's `Execute` becomes a pure
function from an argument map to `Except String String` (Go's
`(string, error)`). The JSON decoding of a structured tool call's raw
argument bytes (`json.Unmarshal`) is external library code; a raw payload
is therefore embedded as `ArgPayload`: `empty` for a zero-length payload
(Go skips decoding and passes a nil map) and `payload d` for a non-empty
payload whose decoding outcome is `d`. -/

namespace Agent

/-! ## List-of-characters scanning helpers

Go's `strings.Index`, `strings.Contains` and slicing are modelled over
`List Char`. `firstIdx sub s` is `strings.Index(s, sub)` for the non-empty
patterns used by the parser (`none` stands for Go's `-1`). -/

/-- Whether `sub` is a prefix of `s` (character-wise equality). -/
def startsWithL : List Char → List Char → Bool
  | [], _ => true
  | _ :: _, [] => false
  | a :: as, b :: bs => a == b && startsWithL as bs

/-- Index of the first occurrence of `sub` in `s`, as `strings.Index` computes
it for a non-empty `sub`; `none` models Go's `-1`. -/
def firstIdx (sub : List Char) : List Char → Option Nat
  | [] => none
  | c :: rest =>
    if startsWithL sub (c :: rest) then some 0
    else (firstIdx sub rest).map (· + 1)

/-- `sub` occurs contiguously somewhere in `l`. -/
def occursIn (sub l : List Char) : Prop := ∃ p q, l = p ++ sub ++ q

/-- The whitespace class trimmed by `strings.TrimSpace` (the ASCII cases;
the Unicode space classes never arise in the strings of this development). -/
def isSpaceChar (c : Char) : Bool :=
  c == ' ' || c == '\t' || c == '\n' || c == '\r' || c == '\x0b' || c == '\x0c'

/-- `strings.TrimSpace`: drop whitespace from both ends. -/
def trimChars (l : List Char) : List Char :=
  ((l.dropWhile isSpaceChar).reverse.dropWhile isSpaceChar).reverse

/-! ## The tool contract and the Registry (package tools) -/

/-- Argument maps. In Go the value type is `any` (dynamically typed); the
agent loop never inspects the values and the textual fallback parser only
ever produces string values, so values are embedded as strings. Go's map is
embedded as an association list where inserting an existing key replaces
its value in place. -/
abbrev ArgMap := List (String × String)

/-- Go's `args[k] = v` on a `map[string]any`: replace the value when the key
is present, insert otherwise. -/
def insertArg (args : ArgMap) (k v : String) : ArgMap :=
  if args.any (fun p => p.1 == k) then
    args.map (fun p => if p.1 == k then (k, v) else p)
  else args ++ [(k, v)]

/-- The `tools.Tool` interface, restricted to the two methods the agent loop
consumes (`Description` and `Parameters` only feed the schema bundle, which
the abstract `Transport` absorbs): a name and an execution entry point
returning `(string, error)`. -/
structure Tool where
  name : String
  execute : ArgMap → Except String String

/-- `tools.Registry`: a mapping from tool name to tool (Go's
`map[string]Tool` as a function to `Option Tool`). -/
structure Registry where
  tools : String → Option Tool

/-- `tools.NewRegistry`: the empty registry. -/
def NewRegistry : Registry := ⟨fun _ => none⟩

/-- `Registry.Register`: `r.tools[tool.Name()] = tool` — insert or replace
under the tool's name. -/
def Registry.Register (r : Registry) (t : Tool) : Registry :=
  ⟨fun n => if n = t.name then some t else r.tools n⟩

/-- `Registry.Get`: comma-ok lookup, `none` models `ok = false`. -/
def Registry.Get (r : Registry) (n : String) : Option Tool :=
  r.tools n

/-! ## The agent's message types (package agent) -/

deriving instance DecidableEq for Except

/-- The raw `json.RawMessage` argument payload of a structured tool call,
abstracted over the external JSON decoder: `empty` is a zero-length payload
(Go skips `json.Unmarshal` and passes a nil map, embedded as `[]`);
`payload d` is a non-empty payload whose decoding outcome is `d`. -/
inductive ArgPayload where
  | empty
  | payload (decoded : Except String ArgMap)
deriving DecidableEq

/-- `agent.FunctionCall`: function name and raw arguments. -/
structure FunctionCall where
  name : String
  arguments : ArgPayload
deriving DecidableEq

/-- `agent.ToolCall`: a structured tool invocation. `typ` is Go's `Type`
field, which the loop never reads. -/
structure ToolCall where
  id : String
  typ : String := ""
  function : FunctionCall
deriving DecidableEq

/-- `agent.Message`: one conversation turn. `toolCallID` is empty except on
tool-role messages. -/
structure Message where
  role : String
  content : String
  toolCalls : List ToolCall := []
  toolCallID : String := ""
deriving DecidableEq

/-- The model backend boundary (`sendRequest`): from the conversation sent
to it, either one assistant message or a transport error. -/
abbrev Transport := List Message → Except String Message

/-! ## The textual fallback parser (`parseXMLToolCall`) -/

/-- The tag `"<function="`. -/
def funcTag : List Char := "<function=".data

/-- The tag `"<parameter="`. -/
def paramTag : List Char := "<parameter=".data

/-- The closing tag `"</parameter>"`. -/
def closeParamTag : List Char := "</parameter>".data

/-- The parameter-extraction loop of `parseXMLToolCall`, run on the slice of
the content that starts at the `>` closing the function tag. The Go loop
re-slices `remaining` past each `</parameter>`, consuming at least one
character per iteration, so fuel equal to the slice's length (supplied by
the caller) never runs out before the loop's own `break` conditions. -/
def extractParams : Nat → ArgMap → List Char → ArgMap
  | 0, args, _ => args
  | fuel + 1, args, remaining =>
    match firstIdx paramTag remaining with
    | none => args
    | some pStart =>
      let nStart := pStart + paramTag.length
      let afterName := remaining.drop nStart
      match firstIdx ['>'] afterName with
      | none => args
      | some nEnd =>
        let pName := afterName.take nEnd
        let vStart := nStart + nEnd + 1
        let afterValue := remaining.drop vStart
        match firstIdx closeParamTag afterValue with
        | none => args
        | some vEnd =>
          let pValue := trimChars (afterValue.take vEnd)
          extractParams fuel (insertArg args pName.asString pValue.asString)
            (remaining.drop (vStart + vEnd + closeParamTag.length))

/-- `parseXMLToolCall` up to (but not including) its final
`len(args) == 0` check: locate `"<function="`, read the tool name up to the
next `>`, then run the parameter-extraction loop on the rest. (The Go
source's initial `strings.Contains` test and its dead re-check of
`strings.Index` against `-1` collapse into the single `firstIdx` match.) -/
def parseXMLToolCallRaw (content : String) : Option (String × ArgMap) :=
  let d := content.data
  match firstIdx funcTag d with
  | none => none
  | some start =>
    let nStart := start + funcTag.length
    let afterName := d.drop nStart
    match firstIdx ['>'] afterName with
    | none => none
    | some nEnd =>
      let toolName := (afterName.take nEnd).asString
      let remaining := d.drop (nStart + nEnd)
      some (toolName, extractParams remaining.length [] remaining)

/-- `agent.parseXMLToolCall`: the textual fallback parser. `some (name,
args)` models Go's `ok = true` return; per the source's final check, a
match that captured no parameters reports no tool call at all. -/
def parseXMLToolCall (content : String) : Option (String × ArgMap) :=
  match parseXMLToolCallRaw content with
  | none => none
  | some (toolName, args) => if args = [] then none else some (toolName, args)

/-- The fixed substitute text of `cleanResponse` for content that is pure
pseudo-markup fragment. -/
def fallbackNotice : String :=
  "I tried to run code but encountered an issue. Please try rephrasing your request."

/-- `agent.cleanResponse`: strip a dangling `"<function="` fragment. Text
before the first tag (trimmed, when non-empty) is returned; content that is
pure fragment becomes `fallbackNotice`; content with no tag passes through
unchanged. -/
def cleanResponse (content : String) : String :=
  let d := content.data
  match firstIdx funcTag d with
  | none => content
  | some idx =>
    let before := trimChars (d.take idx)
    if 0 < idx && !before.isEmpty then before.asString else fallbackNotice

/-! ## Tool execution and the agent loop (`Chat`) -/

/-- The argument map `executeTool` hands to `tool.Execute`: a nil (empty)
map for a zero-length payload, otherwise the JSON decoding outcome. -/
def argsOf : ArgPayload → Except String ArgMap
  | ArgPayload.empty => Except.ok []
  | ArgPayload.payload d => d

/-- `agent.executeTool`: resolve the tool name in the registry (unknown
names are an error naming the tool), decode the raw arguments (a non-empty
payload that fails to decode is a `parsing tool arguments` error), then
call the tool. -/
def executeTool (reg : Registry) (tc : ToolCall) : Except String String :=
  match reg.Get tc.function.name with
  | none => Except.error ("unknown tool: " ++ tc.function.name)
  | some tool =>
    match tc.function.arguments with
    | ArgPayload.empty => tool.execute []
    | ArgPayload.payload (Except.error e) =>
        Except.error ("parsing tool arguments: " ++ e)
    | ArgPayload.payload (Except.ok args) => tool.execute args

/-- The loop's error-to-text conversion: `result = fmt.Sprintf("Error: %v",
err)` on a non-nil error, the result text itself otherwise. -/
def errText : Except String String → String
  | Except.ok r => r
  | Except.error e => "Error: " ++ e

/-- The tool-role messages one round of `Chat` appends for the structured
tool calls of an assistant message: one per invocation, in invocation
order, each carrying the invocation's correlation id. -/
def toolResults (reg : Registry) (tcs : List ToolCall) : List Message :=
  tcs.map (fun tc =>
    { role := "tool", content := errText (executeTool reg tc), toolCallID := tc.id })

/-- `agent.maxToolCalls`. -/
def maxToolCalls : Nat := 20

/-- The bound-exceeded error text, `fmt.Errorf("exceeded maximum tool calls
(%d)", maxToolCalls)`. -/
def boundErrorText : String :=
  "exceeded maximum tool calls (" ++ toString maxToolCalls ++ ")"

/-- `agent.systemPrompt`, the fixed system instruction `Chat` places first
in every conversation. -/
def systemPrompt : String :=
  "You are a helpful AI assistant with access to tools.

TOOLS:
- python: For Python code (simple scripts or code with tests)
- bash: For shell commands and file operations
- oci: For container registry operations (inspect images, manifests, copy, annotate, etc.)
- scrape: Fetch and summarize web pages
- get_current_time: Get current time
- get_calendar_events: Check calendar

OCI TOOL (for container images):
Use the oci tool for Docker/OCI image operations:
- oci(operation=\"inspect\", image=\"alpine:latest\") - examine image metadata
- oci(operation=\"manifest\", image=\"ghcr.io/org/app:v1\") - get raw manifest
- oci(operation=\"list-tags\", image=\"docker.io/library/nginx\") - list all tags
- oci(operation=\"copy\", source=\"src:tag\", dest=\"dst:tag\") - copy between registries
- oci(operation=\"annotate\", image=\"myimage:v1\", annotations='\x7b\"key\":\"value\"\x7d')

PYTHON TOOL OPERATIONS:
1. run: Quick scripts - provide 'code' param, prints result immediately
2. develop: Code with tests - provide name, implementation, tests. Runs tests automatically.

SIMPLE TASKS (use python run):
For \"format as JSON\", \"calculate X\":
  python(operation=\"run\", code=\"import json; print(json.dumps(\x7b'key': 'value'\x7d))\")
Return the output to user immediately.

CODE WITH TESTS (use python develop):
For proper implementations:
  python(operation=\"develop\", name=\"mymodule\", implementation=\"def...\", tests=\"def test_...\")

If tests fail, you get errors. Fix with:
  python(operation=\"develop\", name=\"mymodule\", fix_implementation=\"def... # fixed\")

CRITICAL:
- Use 'oci' tool for container/Docker image operations - NOT bash
- Use 'scrape' for summarizing web pages
- Use 'run' for simple one-off scripts
- Use 'develop' when tests are needed
- When you get output, STOP and respond to user"

/-- The conversation `Chat` starts from: the system prompt, then the user
utterance. -/
def initMessages (userMessage : String) : List Message :=
  [ { role := "system", content := systemPrompt },
    { role := "user", content := userMessage } ]

/-- The body of `Chat`'s bounded round loop, indexed by the remaining fuel
(`maxToolCalls - i`). Each round sends the conversation to the transport;
a transport error aborts; an assistant message with structured tool calls
is appended together with its tool results and the loop recurses; with no
structured calls, a fallback-parsed call naming a registered tool is
executed and the loop recurses, and otherwise the sanitized content is the
final answer. The second component of the result is instrumentation absent
from the source: it counts the transport calls the run performed. -/
def chatLoop (reg : Registry) (transport : Transport) :
    Nat → List Message → Except String String × Nat
  | 0, _ => (Except.error boundErrorText, 0)
  | fuel + 1, messages =>
    match transport messages with
    | Except.error e => (Except.error e, 1)
    | Except.ok m =>
      if m.toolCalls = [] then
        match parseXMLToolCall m.content with
        | some (toolName, args) =>
          match reg.Get toolName with
          | some tool =>
            let result := errText (tool.execute args)
            let next := chatLoop reg transport fuel
              (messages ++
                [ { role := "assistant", content := m.content },
                  { role := "tool", content := result, toolCallID := "parsed" } ])
            (next.1, next.2 + 1)
          | none => (Except.ok (cleanResponse m.content), 1)
        | none => (Except.ok (cleanResponse m.content), 1)
      else
        let next := chatLoop reg transport fuel
          (messages ++ m :: toolResults reg m.toolCalls)
        (next.1, next.2 + 1)

/-- `agent.Chat`: run the round loop from the initial conversation with the
full budget. First component: Go's `(string, error)` return; second:
the transport-call count instrumentation of `chatLoop`. -/
def Chat (reg : Registry) (transport : Transport) (userMessage : String) :
    Except String String × Nat :=
  chatLoop reg transport maxToolCalls (initMessages userMessage)

/-! ## Step lemmas: one round of the loop, by case -/

/-- A transport error aborts the round (and the whole call). -/
theorem chatLoop_step_transport_error (reg : Registry) (transport : Transport)
    (fuel : Nat) (msgs : List Message) (e : String)
    (htr : transport msgs = Except.error e) :
    chatLoop reg transport (fuel + 1) msgs = (Except.error e, 1) := by
  simp only [chatLoop, htr]

/-- A response with structured tool calls: append it and its tool results,
then recurse. -/
theorem chatLoop_step_structured (reg : Registry) (transport : Transport)
    (fuel : Nat) (msgs : List Message) (m : Message)
    (htr : transport msgs = Except.ok m) (hne : m.toolCalls ≠ []) :
    chatLoop reg transport (fuel + 1) msgs =
      ((chatLoop reg transport fuel (msgs ++ m :: toolResults reg m.toolCalls)).1,
       (chatLoop reg transport fuel (msgs ++ m :: toolResults reg m.toolCalls)).2 + 1) := by
  simp only [chatLoop, htr, if_neg hne]

/-- A response with no structured calls whose content parses to a fallback
call of a registered tool: execute it, append the exchange, recurse. -/
theorem chatLoop_step_fallback (reg : Registry) (transport : Transport)
    (fuel : Nat) (msgs : List Message) (m : Message)
    (toolName : String) (args : ArgMap) (tool : Tool)
    (htr : transport msgs = Except.ok m) (hz : m.toolCalls = [])
    (hp : parseXMLToolCall m.content = some (toolName, args))
    (hg : reg.Get toolName = some tool) :
    chatLoop reg transport (fuel + 1) msgs =
      ((chatLoop reg transport fuel (msgs ++
          [ { role := "assistant", content := m.content },
            { role := "tool", content := errText (tool.execute args),
              toolCallID := "parsed" } ])).1,
       (chatLoop reg transport fuel (msgs ++
          [ { role := "assistant", content := m.content },
            { role := "tool", content := errText (tool.execute args),
              toolCallID := "parsed" } ])).2 + 1) := by
  simp only [chatLoop, htr, if_pos hz, hp, hg]

/-- A response with no structured calls whose content parses to a fallback
call of an unregistered tool: the round is terminal with the sanitized
content (no tool-result is appended). -/
theorem chatLoop_step_fallback_unknown (reg : Registry) (transport : Transport)
    (fuel : Nat) (msgs : List Message) (m : Message)
    (toolName : String) (args : ArgMap)
    (htr : transport msgs = Except.ok m) (hz : m.toolCalls = [])
    (hp : parseXMLToolCall m.content = some (toolName, args))
    (hg : reg.Get toolName = none) :
    chatLoop reg transport (fuel + 1) msgs =
      (Except.ok (cleanResponse m.content), 1) := by
  simp only [chatLoop, htr, if_pos hz, hp, hg]

/-- A response with no structured calls and no parseable fallback call: the
round is terminal with the sanitized content. -/
theorem chatLoop_step_plain (reg : Registry) (transport : Transport)
    (fuel : Nat) (msgs : List Message) (m : Message)
    (htr : transport msgs = Except.ok m) (hz : m.toolCalls = [])
    (hp : parseXMLToolCall m.content = none) :
    chatLoop reg transport (fuel + 1) msgs =
      (Except.ok (cleanResponse m.content), 1) := by
  simp only [chatLoop, htr, if_pos hz, hp]

/-- Under a model that always requests a structured tool call, the loop
burns all its fuel, performs one transport call per unit of fuel, and ends
with the bound-exceeded error. -/
theorem chatLoop_always_tools (reg : Registry) (transport : Transport)
    (h : ∀ msgs, ∃ m, transport msgs = Except.ok m ∧ m.toolCalls ≠ []) :
    ∀ fuel msgs, chatLoop reg transport fuel msgs = (Except.error boundErrorText, fuel) := by
  intro fuel
  induction fuel with
  | zero => intro msgs; rfl
  | succ n ih =>
    intro msgs
    obtain ⟨m, hm, hne⟩ := h msgs
    rw [chatLoop_step_structured reg transport n msgs m hm hne, ih]

/-! ## C1: the iteration bound -/

/-- C1: for every execution in which every model response carries at least
one structured tool call, `Chat` performs exactly `maxToolCalls = 20`
model-transport calls (the instrumentation component equals the bound),
then returns the error identifying that the maximum number of tool calls
was exceeded — never one round more, and never a partial answer. -/
theorem chat_bound_exceeded (reg : Registry) (transport : Transport) (u : String)
    (h : ∀ msgs, ∃ m, transport msgs = Except.ok m ∧ m.toolCalls ≠ []) :
    Chat reg transport u = (Except.error "exceeded maximum tool calls (20)", maxToolCalls) :=
  chatLoop_always_tools reg transport h maxToolCalls (initMessages u)

/-- Witness for C1: a concrete transport that always requests the tool call
`bash` drives `Chat` into the bound-exceeded error after 20 rounds. -/
theorem chat_bound_exceeded_witness :
    Chat NewRegistry
      (fun _ => Except.ok { role := "assistant", content := "", toolCalls := [{ id := "1", function := { name := "bash", arguments := ArgPayload.empty } }] })
      "hi" = (Except.error "exceeded maximum tool calls (20)", maxToolCalls) :=
  chat_bound_exceeded _ _ _ (fun _ => ⟨_, rfl, by simp⟩)

/-! ## Occurrence lemmas for `firstIdx` and `trimChars` -/

/-- A prefix of a truncation is a prefix of the whole list. -/
theorem startsWithL_take : ∀ (sub l : List Char) (k : Nat),
    startsWithL sub (l.take k) = true → startsWithL sub l = true
  | [], _, _, _ => rfl
  | _ :: _, l, 0, h => by simp [List.take_zero, startsWithL] at h
  | _ :: _, [], _ + 1, h => by simp [List.take, startsWithL] at h
  | a :: as, b :: bs, k + 1, h => by
    rw [List.take_succ_cons] at h
    simp only [startsWithL, Bool.and_eq_true] at h ⊢
    exact ⟨h.1, startsWithL_take as bs k h.2⟩

/-- Before the first occurrence of a (non-empty) pattern there is none. -/
theorem firstIdx_take (sub : List Char) (hs : sub ≠ []) :
    ∀ (l : List Char) (i : Nat), firstIdx sub l = some i → firstIdx sub (l.take i) = none
  | [], _, h => by simp [firstIdx] at h
  | c :: rest, i, h => by
    by_cases hsw : startsWithL sub (c :: rest) = true
    · have hi : i = 0 := by simp [firstIdx, hsw] at h; omega
      subst hi
      cases sub with
      | nil => exact absurd rfl hs
      | cons s ss => simp [List.take_zero, firstIdx]
    · simp only [firstIdx, if_neg hsw, Option.map_eq_some'] at h
      obtain ⟨j, hj, hji⟩ := h
      subst hji
      rw [List.take_succ_cons]
      have hsw2 : ¬ startsWithL sub (c :: rest.take j) = true := by
        intro hc
        have : startsWithL sub ((c :: rest).take (j + 1)) = true := by
          rw [List.take_succ_cons]; exact hc
        exact hsw (startsWithL_take sub (c :: rest) (j + 1) this)
      simp [firstIdx, hsw2, firstIdx_take sub hs rest j hj]

/-- A list starts with itself (followed by anything). -/
theorem startsWithL_append_self : ∀ (sub t : List Char), startsWithL sub (sub ++ t) = true
  | [], _ => rfl
  | a :: as, t => by simp [startsWithL, startsWithL_append_self as t]

/-- A successful prefix test exposes the tail. -/
theorem exists_of_startsWithL : ∀ (sub l : List Char),
    startsWithL sub l = true → ∃ t, l = sub ++ t
  | [], l, _ => ⟨l, rfl⟩
  | _ :: _, [], h => by simp [startsWithL] at h
  | a :: as, b :: bs, h => by
    simp only [startsWithL, Bool.and_eq_true, beq_iff_eq] at h
    obtain ⟨t, ht⟩ := exists_of_startsWithL as bs h.2
    exact ⟨t, by simp [← h.1, ht]⟩

/-- A found index is a real occurrence. -/
theorem occursIn_of_firstIdx_some (sub : List Char) :
    ∀ (l : List Char) (i : Nat), firstIdx sub l = some i → occursIn sub l
  | [], _, h => by simp [firstIdx] at h
  | c :: rest, i, h => by
    by_cases hsw : startsWithL sub (c :: rest) = true
    · obtain ⟨t, ht⟩ := exists_of_startsWithL sub _ hsw
      exact ⟨[], t, by simpa using ht⟩
    · simp only [firstIdx, if_neg hsw, Option.map_eq_some'] at h
      obtain ⟨j, hj, _⟩ := h
      obtain ⟨p, q, hpq⟩ := occursIn_of_firstIdx_some sub rest j hj
      exact ⟨c :: p, q, by simp [hpq]⟩

/-- A real occurrence of a non-empty pattern is found. -/
theorem firstIdx_append_ne_none (sub : List Char) (hs : sub ≠ []) :
    ∀ (p q : List Char), firstIdx sub (p ++ (sub ++ q)) ≠ none
  | [], q => by
    cases sub with
    | nil => exact absurd rfl hs
    | cons s ss =>
      have h := startsWithL_append_self (s :: ss) q
      rw [List.cons_append] at h
      simp only [List.nil_append, List.cons_append, firstIdx, List.append_eq]
      rw [if_pos h]
      simp
  | c :: p', q => by
    rw [List.cons_append]
    simp only [firstIdx]
    by_cases hsw : startsWithL sub (c :: (p' ++ (sub ++ q))) = true
    · simp [hsw]
    · rw [if_neg hsw]
      have ih := firstIdx_append_ne_none sub hs p' q
      cases hfi : firstIdx sub (p' ++ (sub ++ q)) with
      | none => exact absurd hfi ih
      | some j => simp [hfi]

/-- `trimChars l` is a contiguous middle piece of `l`. -/
theorem trimChars_decomp (l : List Char) : ∃ p q, l = p ++ trimChars l ++ q := by
  refine ⟨l.takeWhile isSpaceChar,
    ((l.dropWhile isSpaceChar).reverse.takeWhile isSpaceChar).reverse, ?_⟩
  have h2 := congrArg List.reverse
    (List.takeWhile_append_dropWhile isSpaceChar (l.dropWhile isSpaceChar).reverse)
  rw [List.reverse_append, List.reverse_reverse] at h2
  unfold trimChars
  conv_lhs => rw [← List.takeWhile_append_dropWhile isSpaceChar l, ← h2]
  simp [List.append_assoc]

/-- Trimming cannot create an occurrence of a pattern that the list does not
contain. -/
theorem firstIdx_trimChars_none (sub : List Char) (hs : sub ≠ []) (l : List Char)
    (h : firstIdx sub l = none) : firstIdx sub (trimChars l) = none := by
  cases hfi : firstIdx sub (trimChars l) with
  | none => rfl
  | some j =>
    exfalso
    obtain ⟨p, q, hpq⟩ := occursIn_of_firstIdx_some sub (trimChars l) j hfi
    obtain ⟨x, y, hxy⟩ := trimChars_decomp l
    have heq : l = (x ++ p) ++ (sub ++ (q ++ y)) := by
      rw [hxy, hpq]; simp [List.append_assoc]
    rw [heq] at h
    exact firstIdx_append_ne_none sub hs (x ++ p) (q ++ y) h

/-- A non-empty character list renders to a non-empty string. -/
theorem asString_ne_empty (l : List Char) (h : l ≠ []) : l.asString ≠ "" := by
  intro hc
  exact h (congrArg String.data hc)

/-- Content with no `"<function="` tag passes through `cleanResponse`
unchanged. -/
theorem cleanResponse_of_no_tag (content : String)
    (h : firstIdx funcTag content.data = none) : cleanResponse content = content := by
  simp [cleanResponse, h]

/-- Content with no `"<function="` tag yields no fallback tool call. -/
theorem parseXMLToolCall_of_no_tag (content : String)
    (h : firstIdx funcTag content.data = none) : parseXMLToolCall content = none := by
  simp [parseXMLToolCall, parseXMLToolCallRaw, h]

/-- On content containing the tag, `cleanResponse` yields a non-empty,
tag-free string: the trimmed text before the first tag when that is
non-empty, the fixed neutral notice otherwise. -/
theorem cleanResponse_sanitizes (content : String) (idx : Nat)
    (h : firstIdx funcTag content.data = some idx) :
    cleanResponse content ≠ "" ∧
    firstIdx funcTag (cleanResponse content).data = none ∧
    (cleanResponse content = (trimChars (content.data.take idx)).asString ∨
     cleanResponse content = fallbackNotice) := by
  have hfun : funcTag ≠ [] := by decide
  have htake : firstIdx funcTag (content.data.take idx) = none :=
    firstIdx_take funcTag hfun content.data idx h
  have htrim : firstIdx funcTag (trimChars (content.data.take idx)) = none :=
    firstIdx_trimChars_none funcTag hfun _ htake
  have hnotice1 : (fallbackNotice : String) ≠ "" := by decide
  have hnotice2 : firstIdx funcTag fallbackNotice.data = none := by decide
  simp only [cleanResponse, h]
  by_cases hc : (0 < idx && !(trimChars (content.data.take idx)).isEmpty) = true
  · rw [if_pos hc]
    have hc2 : trimChars (content.data.take idx) ≠ [] := by
      intro h0
      rw [h0] at hc
      simp at hc
    exact ⟨asString_ne_empty _ hc2, htrim, Or.inl rfl⟩
  · rw [if_neg hc]
    exact ⟨hnotice1, hnotice2, Or.inr rfl⟩

/-! ## C6: malformed fallback markup is sanitized -/

/-- C6: when the first response carries no structured tool calls, its
content contains the `"<function="` tag, and no complete tool call parses
from it, `Chat` terminates that round returning a non-empty string free of
the tag — the trimmed text before the first tag when non-empty, otherwise
the fixed neutral notice — and never the raw fragment. -/
theorem malformed_fallback_sanitized (reg : Registry) (transport : Transport)
    (u : String) (m : Message) (idx : Nat)
    (h1 : transport (initMessages u) = Except.ok m)
    (h2 : m.toolCalls = [])
    (h3 : firstIdx funcTag m.content.data = some idx)
    (h4 : parseXMLToolCall m.content = none) :
    Chat reg transport u = (Except.ok (cleanResponse m.content), 1) ∧
    cleanResponse m.content ≠ "" ∧
    firstIdx funcTag (cleanResponse m.content).data = none ∧
    (cleanResponse m.content = (trimChars (m.content.data.take idx)).asString ∨
     cleanResponse m.content = fallbackNotice) := by
  have hchat : Chat reg transport u = chatLoop reg transport (19 + 1) (initMessages u) := rfl
  have hstep := chatLoop_step_plain reg transport 19 (initMessages u) m h1 h2 h4
  obtain ⟨hne, hfree, hform⟩ := cleanResponse_sanitizes m.content idx h3
  exact ⟨hchat.trans hstep, hne, hfree, hform⟩

/-- Witness for C6: content `"Hello <function=br"` (unterminated tag, text
before it) yields the prefix `"Hello"`; the run makes one transport call. -/
theorem malformed_fallback_sanitized_witness :
    Chat NewRegistry (fun _ => Except.ok { role := "assistant", content := "Hello <function=br" }) "u"
      = (Except.ok (cleanResponse "Hello <function=br"), 1) ∧
    cleanResponse "Hello <function=br" ≠ "" ∧
    firstIdx funcTag (cleanResponse "Hello <function=br").data = none ∧
    (cleanResponse "Hello <function=br"
        = (trimChars (("Hello <function=br" : String).data.take 6)).asString ∨
     cleanResponse "Hello <function=br" = fallbackNotice) :=
  malformed_fallback_sanitized NewRegistry
    (fun _ => Except.ok { role := "assistant", content := "Hello <function=br" }) "u"
    { role := "assistant", content := "Hello <function=br" } 6
    rfl rfl (by decide) (by decide)

/-! ## C3: pass-through of a plain first response -/

/-- C3 counterexample: a first response whose content is `" hi "` (no tool
calls, no markup) is returned by `Chat` exactly as `" hi "`, not as its
whitespace-trimmed form `"hi"` — the claim's "after whitespace trimming"
does not hold on the code. -/
theorem passthrough_counterexample :
    Chat NewRegistry (fun _ => Except.ok { role := "assistant", content := " hi " }) "u"
      = (Except.ok " hi ", 1) ∧
    (trimChars (" hi " : String).data).asString = "hi" ∧
    (" hi " : String) ≠ "hi" :=
  ⟨by rfl, by rfl, by decide⟩

/-- C3 as amended: if the first response has no structured tool calls and
its content has no `"<function="` tag, `Chat` returns that content exactly
unchanged (no whitespace trimming) after exactly one transport call. -/
theorem passthrough_exact (reg : Registry) (transport : Transport) (u : String)
    (m : Message)
    (h1 : transport (initMessages u) = Except.ok m)
    (h2 : m.toolCalls = [])
    (h3 : firstIdx funcTag m.content.data = none) :
    Chat reg transport u = (Except.ok m.content, 1) := by
  have hchat : Chat reg transport u = chatLoop reg transport (19 + 1) (initMessages u) := rfl
  rw [hchat, chatLoop_step_plain reg transport 19 (initMessages u) m h1 h2
    (parseXMLToolCall_of_no_tag m.content h3), cleanResponse_of_no_tag m.content h3]

/-- Witness for C3's amended theorem at the content `"hello"`. -/
theorem passthrough_exact_witness :
    Chat NewRegistry (fun _ => Except.ok { role := "assistant", content := "hello" }) "u"
      = (Except.ok "hello", 1) :=
  passthrough_exact NewRegistry
    (fun _ => Except.ok { role := "assistant", content := "hello" }) "u"
    { role := "assistant", content := "hello" } rfl rfl (by decide)

/-! ## C2: unknown tool names -/

/-- C2 counterexample: the content parses to a fallback invocation of
`mytool`, which is absent from the registry; `Chat` does not append an
unknown-tool result and continue — it terminates after one transport call,
returning the sanitized content as the final answer. -/
theorem unknown_fallback_tool_counterexample :
    parseXMLToolCall "<function=mytool><parameter=x>1</parameter>"
      = some ("mytool", [("x", "1")]) ∧
    NewRegistry.Get "mytool" = none ∧
    Chat NewRegistry (fun _ => Except.ok { role := "assistant", content := "<function=mytool><parameter=x>1</parameter>" }) "u"
      = (Except.ok fallbackNotice, 1) :=
  ⟨by rfl, by rfl, by rfl⟩

/-- C2 as amended: a structured invocation of an unregistered tool yields a
tool-result message `"Error: unknown tool: <name>"` carrying the
invocation's id, the loop continues to the next round rather than raising
a call-level error; a fallback-parsed invocation of an unregistered tool
instead ends the loop, returning the sanitized content as the final
answer. -/
theorem unknown_tool_behavior (reg : Registry) (transport : Transport)
    (tc : ToolCall) (fuel : Nat) (msgs msgs2 : List Message) (m m2 : Message)
    (tn : String) (args : ArgMap) :
    (reg.Get tc.function.name = none →
      toolResults reg [tc] =
        [{ role := "tool", content := "Error: unknown tool: " ++ tc.function.name,
           toolCallID := tc.id }]) ∧
    (transport msgs = Except.ok m → m.toolCalls ≠ [] →
      chatLoop reg transport (fuel + 1) msgs =
        ((chatLoop reg transport fuel (msgs ++ m :: toolResults reg m.toolCalls)).1,
         (chatLoop reg transport fuel (msgs ++ m :: toolResults reg m.toolCalls)).2 + 1)) ∧
    (transport msgs2 = Except.ok m2 → m2.toolCalls = [] →
      parseXMLToolCall m2.content = some (tn, args) → reg.Get tn = none →
      chatLoop reg transport (fuel + 1) msgs2 = (Except.ok (cleanResponse m2.content), 1)) := by
  refine ⟨?_, ?_, ?_⟩
  · intro h
    simp only [toolResults, List.map_cons, List.map_nil, executeTool, h, errText]
    have hfold : ("Error: " ++ "unknown tool: " : String) = "Error: unknown tool: " := rfl
    rw [← String.append_assoc, hfold]
  · exact fun ha hb => chatLoop_step_structured reg transport fuel msgs m ha hb
  · exact fun ha hb hc hd =>
      chatLoop_step_fallback_unknown reg transport fuel msgs2 m2 tn args ha hb hc hd

/-- Witness for C2's amended theorem: the unregistered structured call
`ghost` yields its error result message; one structured round recurses; a
fallback round naming the unregistered `mytool` terminates with the
sanitized content. -/
theorem unknown_tool_behavior_witness :
    toolResults NewRegistry [{ id := "7", function := { name := "ghost", arguments := ArgPayload.empty } }]
      = [{ role := "tool", content := "Error: unknown tool: " ++ "ghost", toolCallID := "7" }] ∧
    chatLoop NewRegistry
      (fun ms => if ms = [] then Except.ok { role := "assistant", content := "", toolCalls := [{ id := "7", function := { name := "ghost", arguments := ArgPayload.empty } }] } else Except.ok { role := "assistant", content := "<function=mytool><parameter=x>1</parameter>" })
      (0 + 1) []
      = ((chatLoop NewRegistry
            (fun ms => if ms = [] then Except.ok { role := "assistant", content := "", toolCalls := [{ id := "7", function := { name := "ghost", arguments := ArgPayload.empty } }] } else Except.ok { role := "assistant", content := "<function=mytool><parameter=x>1</parameter>" })
            0 ([] ++ { role := "assistant", content := "", toolCalls := [{ id := "7", function := { name := "ghost", arguments := ArgPayload.empty } }] } :: toolResults NewRegistry [{ id := "7", function := { name := "ghost", arguments := ArgPayload.empty } }])).1,
         (chatLoop NewRegistry
            (fun ms => if ms = [] then Except.ok { role := "assistant", content := "", toolCalls := [{ id := "7", function := { name := "ghost", arguments := ArgPayload.empty } }] } else Except.ok { role := "assistant", content := "<function=mytool><parameter=x>1</parameter>" })
            0 ([] ++ { role := "assistant", content := "", toolCalls := [{ id := "7", function := { name := "ghost", arguments := ArgPayload.empty } }] } :: toolResults NewRegistry [{ id := "7", function := { name := "ghost", arguments := ArgPayload.empty } }])).2 + 1) ∧
    chatLoop NewRegistry
      (fun ms => if ms = [] then Except.ok { role := "assistant", content := "", toolCalls := [{ id := "7", function := { name := "ghost", arguments := ArgPayload.empty } }] } else Except.ok { role := "assistant", content := "<function=mytool><parameter=x>1</parameter>" })
      (0 + 1) [{ role := "user", content := "u" }]
      = (Except.ok (cleanResponse "<function=mytool><parameter=x>1</parameter>"), 1) := by
  have t := unknown_tool_behavior NewRegistry
    (fun ms => if ms = [] then Except.ok { role := "assistant", content := "", toolCalls := [{ id := "7", function := { name := "ghost", arguments := ArgPayload.empty } }] } else Except.ok { role := "assistant", content := "<function=mytool><parameter=x>1</parameter>" })
    { id := "7", function := { name := "ghost", arguments := ArgPayload.empty } } 0
    [] [{ role := "user", content := "u" }]
    { role := "assistant", content := "", toolCalls := [{ id := "7", function := { name := "ghost", arguments := ArgPayload.empty } }] }
    { role := "assistant", content := "<function=mytool><parameter=x>1</parameter>" }
    "mytool" [("x", "1")]
  exact ⟨t.1 rfl, t.2.1 rfl (by simp), t.2.2 (by rfl) rfl (by rfl) rfl⟩

/-! ## C8: registry round-trip, last registration wins, frame -/

/-- C8: registration round-trips with lookup (`Get (t.name)` after
`Register t` yields `t`), the last of two registrations under one name
wins, and a lookup of any other name is unchanged by the two
registrations. -/
theorem registry_register_get (r : Registry) (t t1 t2 : Tool) (nm other : String)
    (h1 : t1.name = nm) (h2 : t2.name = nm) (ho : other ≠ nm) :
    (r.Register t).Get t.name = some t ∧
    ((r.Register t1).Register t2).Get nm = some t2 ∧
    ((r.Register t1).Register t2).Get other = r.Get other := by
  refine ⟨?_, ?_, ?_⟩
  · simp [Registry.Register, Registry.Get]
  · simp [Registry.Register, Registry.Get, h2]
  · simp [Registry.Register, Registry.Get, h1, h2, ho]

/-- Witness for C8 at concrete tools: `t` under name `a`; `t1`, `t2` both
under name `x`; the unrelated name `b` stays absent. -/
theorem registry_register_get_witness :
    (NewRegistry.Register { name := "a", execute := fun _ => Except.ok "r" }).Get "a"
        = some { name := "a", execute := fun _ => Except.ok "r" } ∧
    ((NewRegistry.Register { name := "x", execute := fun _ => Except.ok "1" }).Register
        { name := "x", execute := fun _ => Except.ok "2" }).Get "x"
        = some { name := "x", execute := fun _ => Except.ok "2" } ∧
    ((NewRegistry.Register { name := "x", execute := fun _ => Except.ok "1" }).Register
        { name := "x", execute := fun _ => Except.ok "2" }).Get "b"
        = NewRegistry.Get "b" :=
  registry_register_get NewRegistry _ _ _ "x" "b" rfl rfl (by decide)

/-- Call-level errors come only from the bound or the transport: by
induction over the fuel, every `Except.error` result of the loop is either
the bound-exceeded text or an error some transport call returned. -/
theorem chatLoop_error_source (reg : Registry) (transport : Transport) :
    ∀ (fuel : Nat) (msgs : List Message) (e : String),
      (chatLoop reg transport fuel msgs).1 = Except.error e →
      e = boundErrorText ∨ ∃ ms, transport ms = Except.error e := by
  intro fuel
  induction fuel with
  | zero =>
    intro msgs e h
    left
    have h2 : (Except.error boundErrorText : Except String String) = Except.error e := h
    injection h2 with h3
    exact h3.symm
  | succ n ih =>
    intro msgs e h
    cases htr : transport msgs with
    | error e2 =>
      rw [chatLoop_step_transport_error reg transport n msgs e2 htr] at h
      simp only [Except.error.injEq] at h
      exact Or.inr ⟨msgs, by rw [htr, h]⟩
    | ok m =>
      by_cases hz : m.toolCalls = []
      · cases hp : parseXMLToolCall m.content with
        | none =>
          rw [chatLoop_step_plain reg transport n msgs m htr hz hp] at h
          simp at h
        | some pr =>
          obtain ⟨tn, args⟩ := pr
          cases hg : reg.Get tn with
          | none =>
            rw [chatLoop_step_fallback_unknown reg transport n msgs m tn args htr hz hp hg] at h
            simp at h
          | some tool =>
            rw [chatLoop_step_fallback reg transport n msgs m tn args tool htr hz hp hg] at h
            exact ih _ e h
      · rw [chatLoop_step_structured reg transport n msgs m htr hz] at h
        exact ih _ e h

/-! ## C4: tool execution failures are absorbed, never call-level -/

/-- C4: a registered tool whose `execute` fails has its error rendered as
`"Error: <err>"` tool-result content — on the structured path (first
conjunct) and on the fallback path (second conjunct, where the loop
continues with the exchange appended) — and every call-level error of the
loop is the bound-exceeded error or a transport error, never a tool
failure (third conjunct). -/
theorem tool_error_absorbed (reg : Registry) (transport : Transport)
    (tc : ToolCall) (tool : Tool) (args : ArgMap) (e : String)
    (fuel : Nat) (msgs : List Message) (m : Message) (tn : String)
    (fargs : ArgMap) (ftool : Tool) (fe : String) :
    (reg.Get tc.function.name = some tool →
      argsOf tc.function.arguments = Except.ok args →
      tool.execute args = Except.error e →
      toolResults reg [tc] =
        [{ role := "tool", content := "Error: " ++ e, toolCallID := tc.id }]) ∧
    (transport msgs = Except.ok m → m.toolCalls = [] →
      parseXMLToolCall m.content = some (tn, fargs) → reg.Get tn = some ftool →
      ftool.execute fargs = Except.error fe →
      chatLoop reg transport (fuel + 1) msgs =
        ((chatLoop reg transport fuel (msgs ++
            [ { role := "assistant", content := m.content },
              { role := "tool", content := "Error: " ++ fe, toolCallID := "parsed" } ])).1,
         (chatLoop reg transport fuel (msgs ++
            [ { role := "assistant", content := m.content },
              { role := "tool", content := "Error: " ++ fe, toolCallID := "parsed" } ])).2 + 1)) ∧
    (∀ f2 ms2 e2, (chatLoop reg transport f2 ms2).1 = Except.error e2 →
      e2 = boundErrorText ∨ ∃ ms3, transport ms3 = Except.error e2) := by
  refine ⟨?_, ?_, fun f2 ms2 e2 h => chatLoop_error_source reg transport f2 ms2 e2 h⟩
  · intro hg ha he
    have hex : executeTool reg tc = Except.error e := by
      cases harg : tc.function.arguments with
      | empty =>
        rw [harg] at ha
        simp only [argsOf] at ha
        injection ha with ha2
        subst ha2
        simp [executeTool, hg, harg, he]
      | payload d =>
        rw [harg] at ha
        simp only [argsOf] at ha
        rw [ha] at harg
        simp [executeTool, hg, harg, he]
    simp [toolResults, hex, errText]
  · intro h1 h2 h3 h4 h5
    have hstep := chatLoop_step_fallback reg transport fuel msgs m tn fargs ftool h1 h2 h3 h4
    rw [h5] at hstep
    exact hstep

/-- Witness fixture: a registered tool named `bash` whose execution always
fails with `boom`. -/
def failTool : Tool := { name := "bash", execute := fun _ => Except.error "boom" }

/-- Witness fixture: the registry holding only `failTool`. -/
def wReg : Registry := NewRegistry.Register failTool

/-- Witness fixture: assistant content carrying a fallback call of `bash`. -/
def wFallContent : String := "<function=bash><parameter=command>ls</parameter>"

/-- Witness fixture: the assistant message around `wFallContent`. -/
def wFallMsg : Message := { role := "assistant", content := wFallContent }

/-- Witness fixture: a transport answering the empty conversation with
`wFallMsg` and any other conversation with a transport error. -/
def wTransport : Transport :=
  fun ms => if ms = [] then Except.ok wFallMsg else Except.error "down"

/-- Witness fixture: a structured invocation of `bash` with an empty
payload. -/
def wCall : ToolCall :=
  { id := "9", function := { name := "bash", arguments := ArgPayload.empty } }

/-- Witness for C4 at the concrete fixtures: the structured result message,
the fallback round's continuation shape, and the error-source property. -/
theorem tool_error_absorbed_witness :
    (toolResults wReg [wCall] =
      [{ role := "tool", content := "Error: " ++ "boom", toolCallID := "9" }]) ∧
    (chatLoop wReg wTransport (0 + 1) [] =
      ((chatLoop wReg wTransport 0 ([] ++
          [ { role := "assistant", content := wFallContent },
            { role := "tool", content := "Error: " ++ "boom", toolCallID := "parsed" } ])).1,
       (chatLoop wReg wTransport 0 ([] ++
          [ { role := "assistant", content := wFallContent },
            { role := "tool", content := "Error: " ++ "boom", toolCallID := "parsed" } ])).2 + 1)) ∧
    (∀ f2 ms2 e2, (chatLoop wReg wTransport f2 ms2).1 = Except.error e2 →
      e2 = boundErrorText ∨ ∃ ms3, wTransport ms3 = Except.error e2) := by
  have t := tool_error_absorbed wReg wTransport wCall failTool [] "boom" 0 [] wFallMsg
    "bash" [("command", "ls")] failTool "boom"
  exact ⟨t.1 rfl rfl rfl, t.2.1 rfl rfl (by rfl) rfl rfl, t.2.2⟩

/-! ## C5: dispatch order and correlation ids of structured tool results -/

/-- C5: one round on an assistant message with structured invocations
appends that message and then one tool-role message per invocation,
immediately after it and in invocation order: the appended tool messages'
correlation ids are exactly the invocations' ids in order, and every
appended tool message has role `"tool"`. -/
theorem tool_dispatch_order (reg : Registry) (transport : Transport)
    (fuel : Nat) (msgs : List Message) (m : Message)
    (h1 : transport msgs = Except.ok m) (h2 : m.toolCalls ≠ []) :
    chatLoop reg transport (fuel + 1) msgs =
      ((chatLoop reg transport fuel (msgs ++ m :: toolResults reg m.toolCalls)).1,
       (chatLoop reg transport fuel (msgs ++ m :: toolResults reg m.toolCalls)).2 + 1) ∧
    (toolResults reg m.toolCalls).map Message.toolCallID = m.toolCalls.map ToolCall.id ∧
    ∀ msg ∈ toolResults reg m.toolCalls, msg.role = "tool" := by
  refine ⟨chatLoop_step_structured reg transport fuel msgs m h1 h2, ?_, ?_⟩
  · simp only [toolResults, List.map_map]
    rfl
  · intro msg hmsg
    simp only [toolResults, List.mem_map] at hmsg
    obtain ⟨tc, _, h⟩ := hmsg
    rw [← h]

/-- Witness fixture for C5: an assistant message carrying the three
invocations `a`, `b`, `c`. -/
def wOrderMsg : Message :=
  { role := "assistant", content := "",
    toolCalls :=
      [ { id := "a", function := { name := "t1", arguments := ArgPayload.empty } },
        { id := "b", function := { name := "t2", arguments := ArgPayload.empty } },
        { id := "c", function := { name := "t3", arguments := ArgPayload.empty } } ] }

/-- Witness for C5 at the three concrete invocations [a, b, c]. -/
theorem tool_dispatch_order_witness :
    chatLoop NewRegistry (fun _ => Except.ok wOrderMsg) (0 + 1) [] =
      ((chatLoop NewRegistry (fun _ => Except.ok wOrderMsg) 0
          ([] ++ wOrderMsg :: toolResults NewRegistry wOrderMsg.toolCalls)).1,
       (chatLoop NewRegistry (fun _ => Except.ok wOrderMsg) 0
          ([] ++ wOrderMsg :: toolResults NewRegistry wOrderMsg.toolCalls)).2 + 1) ∧
    (toolResults NewRegistry wOrderMsg.toolCalls).map Message.toolCallID
      = wOrderMsg.toolCalls.map ToolCall.id ∧
    ∀ msg ∈ toolResults NewRegistry wOrderMsg.toolCalls, msg.role = "tool" :=
  tool_dispatch_order NewRegistry (fun _ => Except.ok wOrderMsg) 0 [] wOrderMsg rfl (by decide)

/-! ## C7: a fallback match with zero parameters is no tool call -/

/-- C7: a content string whose well-formed function tag yields zero
extracted parameter pairs makes `parseXMLToolCall` report that no tool
call was found, and (second conjunct) a round whose content yields no
parsed tool call is treated as plain final content rather than executing
the named tool with an empty argument map. -/
theorem zero_params_no_tool_call (reg : Registry) (transport : Transport)
    (content : String) (tn : String) (fuel : Nat) (msgs : List Message) (m : Message) :
    (parseXMLToolCallRaw content = some (tn, []) → parseXMLToolCall content = none) ∧
    (transport msgs = Except.ok m → m.toolCalls = [] →
      parseXMLToolCall m.content = none →
      chatLoop reg transport (fuel + 1) msgs = (Except.ok (cleanResponse m.content), 1)) := by
  refine ⟨?_, fun h1 h2 h3 => chatLoop_step_plain reg transport fuel msgs m h1 h2 h3⟩
  intro h
  simp [parseXMLToolCall, h]

/-- Witness fixture for C7: a well-formed function tag with no parameter
tags at all. -/
def wZeroMsg : Message := { role := "assistant", content := "<function=foo>x" }

/-- Witness for C7: `"<function=foo>x"` raw-parses to `foo` with zero
parameters, the parser reports no call, and the round returns the
sanitized content after one transport call. -/
theorem zero_params_no_tool_call_witness :
    (parseXMLToolCallRaw "<function=foo>x" = some ("foo", []) →
      parseXMLToolCall "<function=foo>x" = none) ∧
    chatLoop NewRegistry (fun _ => Except.ok wZeroMsg) (0 + 1) []
      = (Except.ok (cleanResponse "<function=foo>x"), 1) := by
  have t := zero_params_no_tool_call NewRegistry (fun _ => Except.ok wZeroMsg)
    "<function=foo>x" "foo" 0 [] wZeroMsg
  exact ⟨t.1, t.2 rfl rfl (t.1 rfl)⟩

/-! ## C9: undecodable structured arguments are absorbed -/

/-- C9: a structured invocation of a registered tool whose non-empty raw
payload fails to decode yields the tool-result message
`"Error: parsing tool arguments: <err>"` carrying the invocation's id, the
loop continues to the next round, and (second conjunct) no call-level
error arises from it: call-level errors are only the bound or transport
errors. -/
theorem invalid_args_absorbed (reg : Registry) (transport : Transport)
    (fuel : Nat) (msgs : List Message) (m : Message) (tc : ToolCall) (tool : Tool) (e : String)
    (h1 : transport msgs = Except.ok m) (h2 : m.toolCalls = [tc])
    (h3 : reg.Get tc.function.name = some tool)
    (h4 : tc.function.arguments = ArgPayload.payload (Except.error e)) :
    chatLoop reg transport (fuel + 1) msgs =
      ((chatLoop reg transport fuel (msgs ++ m ::
          [{ role := "tool", content := "Error: parsing tool arguments: " ++ e,
             toolCallID := tc.id }])).1,
       (chatLoop reg transport fuel (msgs ++ m ::
          [{ role := "tool", content := "Error: parsing tool arguments: " ++ e,
             toolCallID := tc.id }])).2 + 1) ∧
    (∀ f2 ms2 e2, (chatLoop reg transport f2 ms2).1 = Except.error e2 →
      e2 = boundErrorText ∨ ∃ ms3, transport ms3 = Except.error e2) := by
  have hres : toolResults reg m.toolCalls =
      [{ role := "tool", content := "Error: parsing tool arguments: " ++ e,
         toolCallID := tc.id }] := by
    rw [h2]
    simp only [toolResults, List.map_cons, List.map_nil, executeTool, h3, h4, errText]
    have hfold : ("Error: " ++ "parsing tool arguments: " : String)
        = "Error: parsing tool arguments: " := rfl
    rw [← String.append_assoc, hfold]
  have hne : m.toolCalls ≠ [] := by rw [h2]; simp
  have hstep := chatLoop_step_structured reg transport fuel msgs m h1 hne
  rw [hres] at hstep
  exact ⟨hstep, fun f2 ms2 e2 h => chatLoop_error_source reg transport f2 ms2 e2 h⟩

/-- Witness fixture for C9: a structured `bash` invocation whose non-empty
payload fails to decode. -/
def wBadCall : ToolCall :=
  { id := "5", function := { name := "bash", arguments := ArgPayload.payload (Except.error "invalid character") } }

/-- Witness fixture for C9: the assistant message carrying `wBadCall`. -/
def wBadMsg : Message := { role := "assistant", content := "", toolCalls := [wBadCall] }

/-- Witness for C9 at the concrete undecodable invocation. -/
theorem invalid_args_absorbed_witness :
    chatLoop wReg (fun _ => Except.ok wBadMsg) (0 + 1) [] =
      ((chatLoop wReg (fun _ => Except.ok wBadMsg) 0 ([] ++ wBadMsg ::
          [{ role := "tool", content := "Error: parsing tool arguments: " ++ "invalid character",
             toolCallID := "5" }])).1,
       (chatLoop wReg (fun _ => Except.ok wBadMsg) 0 ([] ++ wBadMsg ::
          [{ role := "tool", content := "Error: parsing tool arguments: " ++ "invalid character",
             toolCallID := "5" }])).2 + 1) ∧
    (∀ f2 ms2 e2, (chatLoop wReg (fun _ => Except.ok wBadMsg) f2 ms2).1 = Except.error e2 →
      e2 = boundErrorText ∨ ∃ ms3, (fun _ => Except.ok wBadMsg : Transport) ms3 = Except.error e2) :=
  invalid_args_absorbed wReg (fun _ => Except.ok wBadMsg) 0 [] wBadMsg wBadCall failTool
    "invalid character" rfl rfl (by rfl) rfl

/-! ## C10: fallback tool results carry the fixed id "parsed" -/

/-- C10: the tool-role message appended by the textual fallback path always
carries the fixed correlation id `"parsed"` — the id does not depend on
the parsed tool name, its arguments, or the message — so any two fallback
tool results in one conversation are indistinguishable by correlation
id. -/
theorem fallback_correlation_id_parsed (reg : Registry) (transport : Transport)
    (fuel : Nat) (msgs : List Message) (m : Message)
    (tn : String) (args : ArgMap) (tool : Tool)
    (h1 : transport msgs = Except.ok m) (h2 : m.toolCalls = [])
    (h3 : parseXMLToolCall m.content = some (tn, args))
    (h4 : reg.Get tn = some tool) :
    chatLoop reg transport (fuel + 1) msgs =
      ((chatLoop reg transport fuel (msgs ++
          [ { role := "assistant", content := m.content },
            { role := "tool", content := errText (tool.execute args),
              toolCallID := "parsed" } ])).1,
       (chatLoop reg transport fuel (msgs ++
          [ { role := "assistant", content := m.content },
            { role := "tool", content := errText (tool.execute args),
              toolCallID := "parsed" } ])).2 + 1) :=
  chatLoop_step_fallback reg transport fuel msgs m tn args tool h1 h2 h3 h4

/-- Witness for C10 at the concrete fallback call of the registered
`bash`. -/
theorem fallback_correlation_id_parsed_witness :
    chatLoop wReg (fun _ => Except.ok wFallMsg) (0 + 1) [] =
      ((chatLoop wReg (fun _ => Except.ok wFallMsg) 0 ([] ++
          [ { role := "assistant", content := wFallContent },
            { role := "tool", content := errText (failTool.execute [("command", "ls")]),
              toolCallID := "parsed" } ])).1,
       (chatLoop wReg (fun _ => Except.ok wFallMsg) 0 ([] ++
          [ { role := "assistant", content := wFallContent },
            { role := "tool", content := errText (failTool.execute [("command", "ls")]),
              toolCallID := "parsed" } ])).2 + 1) :=
  fallback_correlation_id_parsed wReg (fun _ => Except.ok wFallMsg) 0 [] wFallMsg
    "bash" [("command", "ls")] failTool rfl rfl (by rfl) rfl

end Agent
